import Mathlib

/-!
Verification development for the Open-DCAs dashboard's data-shaping core
(`src/api/jupiter.ts` and the chart-series state in
`src/components/DCADashboard.tsx`).

The arithmetic in the source runs on JavaScript IEEE-754 numbers; amounts
originate as arbitrary-precision integers (`BN`) converted with `toNumber()`.
We model JS numbers as an extended rational type `JsNum` (finite rationals
plus `NaN`, `Infinity`, `-Infinity`), which captures exactly the
division-by-zero and non-finite propagation behaviour the claims are about,
while modelling finite arithmetic exactly (no rounding error).  `BN` values
are modelled as `ℤ`.
-/

namespace OpenDCA

/-- truncation of a rational toward zero, as JavaScript obtains when it
truncates a quotient (the denominator of a normalised `Rat` is positive, so
`Int` T-division of numerator by denominator truncates toward zero). -/
def ratTrunc (q : ℚ) : ℤ := Int.tdiv q.num (q.den : ℤ)

/-- model of a JavaScript IEEE-754 number: a finite value (kept as an exact
rational), `NaN`, `Infinity` or `-Infinity`.  Signed zero is identified with
zero. -/
inductive JsNum where
  | nan : JsNum
  | inf : JsNum
  | negInf : JsNum
  | fin : ℚ → JsNum
deriving DecidableEq

namespace JsNum

/-- JS unary minus. -/
def neg : JsNum → JsNum
  | nan => nan
  | inf => negInf
  | negInf => inf
  | fin a => fin (-a)

/-- JS addition: `NaN` is absorbing, `Infinity + (-Infinity) = NaN`. -/
def add : JsNum → JsNum → JsNum
  | nan, _ => nan
  | _, nan => nan
  | inf, negInf => nan
  | negInf, inf => nan
  | inf, _ => inf
  | _, inf => inf
  | negInf, _ => negInf
  | _, negInf => negInf
  | fin a, fin b => fin (a + b)

/-- JS subtraction, `a - b = a + (-b)`. -/
def sub (a b : JsNum) : JsNum := add a (neg b)

/-- JS multiplication: `NaN` absorbing, `Infinity * 0 = NaN`. -/
def mul : JsNum → JsNum → JsNum
  | nan, _ => nan
  | _, nan => nan
  | inf, inf => inf
  | inf, negInf => negInf
  | negInf, inf => negInf
  | negInf, negInf => inf
  | inf, fin b => if b = 0 then nan else if 0 < b then inf else negInf
  | fin a, inf => if a = 0 then nan else if 0 < a then inf else negInf
  | negInf, fin b => if b = 0 then nan else if 0 < b then negInf else inf
  | fin a, negInf => if a = 0 then nan else if 0 < a then negInf else inf
  | fin a, fin b => fin (a * b)

/-- JS division: `x / 0` is `NaN` for `x = 0`, `±Infinity` otherwise
(signed zero identified with `+0`); `±Infinity / ±Infinity = NaN`;
finite over infinite is `0`. -/
def div : JsNum → JsNum → JsNum
  | nan, _ => nan
  | _, nan => nan
  | inf, inf => nan
  | inf, negInf => nan
  | negInf, inf => nan
  | negInf, negInf => nan
  | inf, fin b => if 0 ≤ b then inf else negInf
  | negInf, fin b => if 0 ≤ b then negInf else inf
  | fin _, inf => fin 0
  | fin _, negInf => fin 0
  | fin a, fin b =>
      if b = 0 then (if a = 0 then nan else if 0 < a then inf else negInf)
      else fin (a / b)

/-- JS remainder `%` on numbers: truncated-division remainder (sign of the
dividend); `x % 0 = NaN`, non-finite dividends give `NaN`,
`x % Infinity = x`. -/
def mod : JsNum → JsNum → JsNum
  | nan, _ => nan
  | _, nan => nan
  | inf, _ => nan
  | negInf, _ => nan
  | fin a, inf => fin a
  | fin a, negInf => fin a
  | fin a, fin b =>
      if b = 0 then nan else fin (a - b * ((ratTrunc (a / b) : ℤ) : ℚ))

/-- JS `Math.ceil`: identity on non-finite values. -/
def ceil : JsNum → JsNum
  | nan => nan
  | inf => inf
  | negInf => negInf
  | fin a => fin ((⌈a⌉ : ℤ) : ℚ)

/-- JS `Math.floor`: identity on non-finite values. -/
def floor : JsNum → JsNum
  | nan => nan
  | inf => inf
  | negInf => negInf
  | fin a => fin ((⌊a⌋ : ℤ) : ℚ)

/-- JS `Math.round`: rounds half toward positive infinity,
`Math.round x = Math.floor (x + 1/2)` for finite `x`; identity on
non-finite values. -/
def round : JsNum → JsNum
  | nan => nan
  | inf => inf
  | negInf => negInf
  | fin a => fin ((⌊a + 1/2⌋ : ℤ) : ℚ)

/-- JS comparison `x > 0` (false for `NaN`). -/
def gtZero : JsNum → Bool
  | nan => false
  | inf => true
  | negInf => false
  | fin a => decide (0 < a)

/-- JS comparison `a <= b` (false whenever either side is `NaN`). -/
def leb : JsNum → JsNum → Bool
  | nan, _ => false
  | _, nan => false
  | negInf, _ => true
  | _, negInf => false
  | _, inf => true
  | inf, _ => false
  | fin a, fin b => decide (a ≤ b)

/-- a JS number is non-negative when `0 <= x` holds in JS (true for
`Infinity`, false for `NaN` and `-Infinity`). -/
def nonneg (x : JsNum) : Prop := leb (fin 0) x = true

/-- JS truthiness of a number: `0` and `NaN` are falsy. -/
def truthy : JsNum → Bool
  | nan => false
  | inf => true
  | negInf => true
  | fin a => decide (a ≠ 0)

instance : Add JsNum := ⟨add⟩
instance : Sub JsNum := ⟨sub⟩
instance : Mul JsNum := ⟨mul⟩
instance : Div JsNum := ⟨div⟩
instance : Neg JsNum := ⟨neg⟩

@[simp] theorem add_def (a b : JsNum) : a + b = add a b := rfl

@[simp] theorem sub_def (a b : JsNum) : a - b = sub a b := rfl

@[simp] theorem mul_def (a b : JsNum) : a * b = mul a b := rfl

@[simp] theorem div_def (a b : JsNum) : a / b = div a b := rfl

@[simp] theorem neg_def (a : JsNum) : -a = neg a := rfl

end JsNum

/-- model of `BN.prototype.toNumber()`: the exact integer value as a JS
number (the model keeps the value exact). -/
def toNum (z : ℤ) : JsNum := JsNum.fin (z : ℚ)

/-- model of `BN.prototype.mod`: bn.js `divmod` asserts a non-zero divisor
and throws otherwise, so the zero-divisor case is `none` (an exception);
otherwise the truncated-division remainder (sign of the dividend). -/
def bnMod (a b : ℤ) : Option ℤ := if b = 0 then none else some (Int.tmod a b)

/-- the `Math.pow(10, 6)` fixed-point scale used throughout the source. -/
def scale : ℚ := 1000000

/-- the tracked LOGOS mint address (`LOGOS_MINT` in `jupiter.ts`). -/
def LOGOS_MINT : String := "HJUfqXoYjC653f2p33i84zdCC3jc4EuVnbruSe5kpump"

/-- the tracked CHAOS mint address (`CHAOS_MINT` in `jupiter.ts`). -/
def CHAOS_MINT : String := "8SgNwESovnbG1oNEaPVhg6CR9mTMSK7jPvcYRe3wpump"

/-- order direction, the `type` argument of `convertDCAAccount`. -/
inductive Direction where
  | BUY : Direction
  | SELL : Direction
deriving DecidableEq

/-- a raw on-chain DCA account (`DCAAccountType` in `jupiter.ts`), with the
`publicKey` and `account` layers flattened; `BN` fields are modelled as `ℤ`,
public keys and mints as strings. -/
structure RawAccount where
  publicKey : String
  user : String
  inputMint : String
  outputMint : String
  idx : ℤ
  nextCycleAt : ℤ
  inDeposited : ℤ
  inWithdrawn : ℤ
  outWithdrawn : ℤ
  inUsed : ℤ
  inAmountPerCycle : ℤ
  cycleFrequency : ℤ
  minOutAmount : Option ℤ
  maxOutAmount : Option ℤ
deriving DecidableEq

/-- the result of `parseTransactionAmounts` (already scaled by the source
before being stored): amounts extracted from the account's most recent
transaction, or `none` when parsing failed. -/
structure TxAmounts where
  chaosReceived : JsNum
  usdcPaid : JsNum
deriving DecidableEq

/-- the `maxPrice` field of a position is a number or the string sentinel
`"No limit"`. -/
inductive PriceLimit where
  | num : JsNum → PriceLimit
  | noLimit : PriceLimit
deriving DecidableEq

/-- the `cycleProgress` sub-record of a position. -/
structure CycleProgress where
  total : JsNum
  used : JsNum
  remaining : JsNum
  percentComplete : JsNum
deriving DecidableEq

/-- the `Position` record returned by `convertDCAAccount` (the object
literal at the end of the function).  Optional fields are `Option`;
absent (`undefined`) is `none`. -/
structure Position where
  id : String
  token : String
  type : Direction
  inputToken : String
  outputToken : String
  inputAmount : JsNum
  totalAmount : JsNum
  amountPerCycle : JsNum
  remainingCycles : JsNum
  cycleFrequency : JsNum
  lastUpdate : JsNum
  publicKey : String
  targetPrice : JsNum
  currentPrice : JsNum
  priceToken : String
  estimatedOutput : Option JsNum
  totalCycles : JsNum
  completedCycles : JsNum
  isActive : Bool
  executionPrice : JsNum
  maxPrice : Option PriceLimit
  minPrice : Option JsNum
  remainingAmount : JsNum
  estimatedTokens : JsNum
  remainingInCycle : JsNum
  cycleProgress : CycleProgress
deriving DecidableEq

/-- the local constant `totalCycles` of `convertDCAAccount`:
`Math.ceil(inDeposited.toNumber() / inAmountPerCycle.toNumber())`. -/
def totalCyclesJs (acc : RawAccount) : JsNum :=
  JsNum.ceil (toNum acc.inDeposited / toNum acc.inAmountPerCycle)

/-- the local constant `completedFullCycles` of `convertDCAAccount`:
`Math.floor(inUsed.toNumber() / inAmountPerCycle.toNumber())`. -/
def completedFullCyclesJs (acc : RawAccount) : JsNum :=
  JsNum.floor (toNum acc.inUsed / toNum acc.inAmountPerCycle)

/-- the local constant `currentCycleUsed` of `convertDCAAccount`:
`(inUsed.toNumber() % inAmountPerCycle.toNumber()) / inAmountPerCycle.toNumber()`. -/
def currentCycleUsedJs (acc : RawAccount) : JsNum :=
  JsNum.mod (toNum acc.inUsed) (toNum acc.inAmountPerCycle) /
    toNum acc.inAmountPerCycle

/-- the local constant `remainingCycles` of `convertDCAAccount`:
`totalCycles - completedFullCycles - currentCycleUsed`. -/
def remainingCyclesJs (acc : RawAccount) : JsNum :=
  totalCyclesJs acc - completedFullCyclesJs acc - currentCycleUsedJs acc

/-- the local constant `executionPrice` of `convertDCAAccount`:
`inUsed.toNumber() > 0 ? outWithdrawn.toNumber() / inUsed.toNumber() : price`. -/
def executionPriceJs (acc : RawAccount) (price : ℚ) : JsNum :=
  if (toNum acc.inUsed).gtZero then toNum acc.outWithdrawn / toNum acc.inUsed
  else JsNum.fin price

/-- the local constant `remainingValue` of `convertDCAAccount`:
`remainingCycles * (inAmountPerCycle.toNumber() / 10^6)`. -/
def remainingValueJs (acc : RawAccount) : JsNum :=
  remainingCyclesJs acc * (toNum acc.inAmountPerCycle / JsNum.fin scale)

/-- the local constant `maxPrice` of `convertDCAAccount`: for BUY orders,
`(inAmountPerCycle/10^6) / (maxOutAmount/10^6)` when `maxOutAmount` is
present, else the string `"No limit"`; `undefined` for SELL orders. -/
def maxPriceJs (acc : RawAccount) (type : Direction) : Option PriceLimit :=
  match type with
  | Direction.BUY =>
      match acc.maxOutAmount with
      | some m => some (PriceLimit.num
          ((toNum acc.inAmountPerCycle / JsNum.fin scale) /
            (toNum m / JsNum.fin scale)))
      | none => some PriceLimit.noLimit
  | Direction.SELL => none

/-- the local constant `minPrice` of `convertDCAAccount`: for SELL orders,
`(minOutAmount/10^6) / (inAmountPerCycle/10^6)` when `minOutAmount` is
present, else `undefined`; `undefined` for BUY orders. -/
def minPriceJs (acc : RawAccount) (type : Direction) : Option JsNum :=
  match type with
  | Direction.SELL =>
      match acc.minOutAmount with
      | some m => some ((toNum m / JsNum.fin scale) /
          (toNum acc.inAmountPerCycle / JsNum.fin scale))
      | none => none
  | Direction.BUY => none

/-- the expression `amounts?.usdcPaid || 0` (the `cycleUsed` constant):
`0` when the transaction amounts are missing or the value is falsy. -/
def cycleUsedJs (amounts : Option TxAmounts) : JsNum :=
  match amounts with
  | none => JsNum.fin 0
  | some t => if t.usdcPaid.truthy then t.usdcPaid else JsNum.fin 0

/-- model of `convertDCAAccount(account, price, token, type)`.  The network
lookups (recent transaction and its parsed amounts) are injected as the
pre-fetched `amounts` argument.  `BN.mod` throws on a zero divisor
(bn.js asserts this), so the function returns `none` exactly when
`inAmountPerCycle = 0`; every arithmetic step before that point follows the
source line by line. -/
def convertDCAAccount (acc : RawAccount) (price : ℚ) (token : String)
    (type : Direction) (amounts : Option TxAmounts) : Option Position :=
  match bnMod acc.inUsed acc.inAmountPerCycle with
  | none => none
  | some usedInCurrentCycle => some
    { id := acc.publicKey
      token := token
      type := type
      inputToken := match type with
        | Direction.BUY => "USDC"
        | Direction.SELL => token
      outputToken := match type with
        | Direction.BUY => token
        | Direction.SELL => "USDC"
      inputAmount := toNum acc.inAmountPerCycle / JsNum.fin scale
      totalAmount := toNum (acc.inDeposited - acc.inWithdrawn) / JsNum.fin scale
      amountPerCycle := toNum acc.inAmountPerCycle / JsNum.fin scale
      remainingCycles := toNum acc.cycleFrequency
      cycleFrequency := toNum acc.cycleFrequency
      lastUpdate := toNum acc.nextCycleAt * JsNum.fin 1000
      publicKey := acc.publicKey
      targetPrice := executionPriceJs acc price
      currentPrice := JsNum.fin price
      priceToken := "USDC"
      estimatedOutput := match type with
        | Direction.SELL => some ((toNum acc.inAmountPerCycle / JsNum.fin scale) *
            executionPriceJs acc price)
        | Direction.BUY => none
      totalCycles := totalCyclesJs acc
      completedCycles := completedFullCyclesJs acc + currentCycleUsedJs acc
      isActive := (remainingCyclesJs acc).gtZero &&
        !(decide (acc.inUsed = acc.inDeposited))
      executionPrice := executionPriceJs acc price / JsNum.fin scale
      maxPrice := maxPriceJs acc type
      minPrice := minPriceJs acc type
      remainingAmount := remainingCyclesJs acc *
        (toNum acc.inAmountPerCycle / JsNum.fin scale)
      estimatedTokens := match type with
        | Direction.BUY =>
          match maxPriceJs acc Direction.BUY with
          | some (PriceLimit.num v) => remainingValueJs acc / v
          | _ => remainingValueJs acc / JsNum.fin price
        | Direction.SELL => remainingValueJs acc *
            (match acc.minOutAmount with
             | some m => toNum m / JsNum.fin scale
             | none => JsNum.fin price)
      remainingInCycle := toNum (acc.inAmountPerCycle - usedInCurrentCycle) /
        JsNum.fin scale
      cycleProgress :=
        { total := toNum acc.inAmountPerCycle / JsNum.fin scale
          used := cycleUsedJs amounts
          remaining := toNum acc.inAmountPerCycle / JsNum.fin scale -
            cycleUsedJs amounts
          percentComplete := (cycleUsedJs amounts /
            (toNum acc.inAmountPerCycle / JsNum.fin scale)) * JsNum.fin 100 } }

/-- model of `isOrderActive(account)`: `!account.account.inUsed.eq(account.account.inDeposited)`
(an exact `BN` comparison). -/
def isOrderActive (acc : RawAccount) : Bool :=
  !(decide (acc.inUsed = acc.inDeposited))

/-- one side's buckets of the `accountsByToken` categorisation. -/
structure TokenBuckets where
  buys : List RawAccount
  sells : List RawAccount
deriving DecidableEq

/-- the `accountsByToken` record built in `getDCAAccounts`. -/
structure AccountsByToken where
  LOGOS : TokenBuckets
  CHAOS : TokenBuckets
deriving DecidableEq

/-- the categorisation step of `getDCAAccounts`: buys are accounts whose
output mint equals the tracked mint, sells those whose input mint does. -/
def categorizeAccounts (allAccounts : List RawAccount) : AccountsByToken :=
  { LOGOS :=
      { buys := allAccounts.filter (fun acc => acc.outputMint = LOGOS_MINT)
        sells := allAccounts.filter (fun acc => acc.inputMint = LOGOS_MINT) }
    CHAOS :=
      { buys := allAccounts.filter (fun acc => acc.outputMint = CHAOS_MINT)
        sells := allAccounts.filter (fun acc => acc.inputMint = CHAOS_MINT) } }

/-- the `prices` argument of `calculateSummaryFromRawAccounts` (current
quotes are finite JS numbers). -/
structure Prices where
  LOGOS : ℚ
  CHAOS : ℚ
deriving DecidableEq

/-- the `TokenSummary` record (from `types/dca.ts`); order counts are
`.length` values, volumes are JS numbers. -/
structure TokenSummary where
  buyOrders : ℕ
  sellOrders : ℕ
  buyVolume : JsNum
  sellVolume : JsNum
  buyVolumeUSDC : JsNum
  sellVolumeUSDC : JsNum
  price : ℚ
deriving DecidableEq

/-- the per-account `remainingCycles` constant inside the summary's buy
reducers: `Math.ceil(dep/apc) - Math.floor(used/apc)` (whole cycles only,
unlike the converter's fractional version). -/
def summaryRemainingCycles (acc : RawAccount) : JsNum :=
  totalCyclesJs acc - completedFullCyclesJs acc

/-- the per-account `remainingUSDC` constant inside the summary's
`buyVolume` reducer: `remainingCycles * (inAmountPerCycle.toNumber() / 10^6)`. -/
def summaryRemainingUSDC (acc : RawAccount) : JsNum :=
  summaryRemainingCycles acc * (toNum acc.inAmountPerCycle / JsNum.fin scale)

/-- the `buyVolume` summary field:
`Math.round(activeBuys.reduce((sum, acc) => sum + remainingUSDC / price, 0))`. -/
def summaryBuyVolume (buys : List RawAccount) (price : ℚ) : JsNum :=
  JsNum.round ((buys.filter isOrderActive).foldl
    (fun sum acc => sum + summaryRemainingUSDC acc / JsNum.fin price)
    (JsNum.fin 0))

/-- the `sellVolume` summary field (note: not rounded in the source):
`activeSells.reduce((sum, acc) => sum + (dep - withdrawn)/10^6, 0)`. -/
def summarySellVolume (sells : List RawAccount) : JsNum :=
  (sells.filter isOrderActive).foldl
    (fun sum acc =>
      sum + toNum (acc.inDeposited - acc.inWithdrawn) / JsNum.fin scale)
    (JsNum.fin 0)

/-- the `buyVolumeUSDC` summary field:
`Math.round(activeBuys.reduce((sum, acc) => sum + remainingCycles * (apc/10^6), 0))`. -/
def summaryBuyVolumeUSDC (buys : List RawAccount) : JsNum :=
  JsNum.round ((buys.filter isOrderActive).foldl
    (fun sum acc =>
      sum + summaryRemainingCycles acc *
        (toNum acc.inAmountPerCycle / JsNum.fin scale))
    (JsNum.fin 0))

/-- the `sellVolumeUSDC` summary field:
`Math.round(activeSells.reduce((sum, acc) => sum + ((dep - withdrawn)/10^6) * price, 0))`. -/
def summarySellVolumeUSDC (sells : List RawAccount) (price : ℚ) : JsNum :=
  JsNum.round ((sells.filter isOrderActive).foldl
    (fun sum acc =>
      sum + (toNum (acc.inDeposited - acc.inWithdrawn) / JsNum.fin scale) *
        JsNum.fin price)
    (JsNum.fin 0))

/-- model of `calculateSummaryFromRawAccounts`: the returned
`Record<string, TokenSummary>` literal with exactly the keys `LOGOS` and
`CHAOS`, as an association list in source order.  Each field repeats the
same inline reducers the source writes out per token. -/
def calculateSummaryFromRawAccounts (accountsByToken : AccountsByToken)
    (prices : Prices) : List (String × TokenSummary) :=
  [("LOGOS",
    { buyOrders := (accountsByToken.LOGOS.buys.filter isOrderActive).length
      sellOrders := (accountsByToken.LOGOS.sells.filter isOrderActive).length
      buyVolume := summaryBuyVolume accountsByToken.LOGOS.buys prices.LOGOS
      sellVolume := summarySellVolume accountsByToken.LOGOS.sells
      buyVolumeUSDC := summaryBuyVolumeUSDC accountsByToken.LOGOS.buys
      sellVolumeUSDC := summarySellVolumeUSDC accountsByToken.LOGOS.sells
        prices.LOGOS
      price := prices.LOGOS }),
   ("CHAOS",
    { buyOrders := (accountsByToken.CHAOS.buys.filter isOrderActive).length
      sellOrders := (accountsByToken.CHAOS.sells.filter isOrderActive).length
      buyVolume := summaryBuyVolume accountsByToken.CHAOS.buys prices.CHAOS
      sellVolume := summarySellVolume accountsByToken.CHAOS.sells
      buyVolumeUSDC := summaryBuyVolumeUSDC accountsByToken.CHAOS.buys
      sellVolumeUSDC := summarySellVolumeUSDC accountsByToken.CHAOS.sells
        prices.CHAOS
      price := prices.CHAOS })]

/-- the position-building step of `getDCAAccounts` (lines filtering each
bucket by `isOrderActive` and mapping `convertDCAAccount` over it); the
per-account transaction lookup is injected as the `txData` oracle. -/
def buildPositions (accountsByToken : AccountsByToken)
    (logosPrice chaosPrice : ℚ)
    (txData : RawAccount → Option TxAmounts) : List (Option Position) :=
  (accountsByToken.LOGOS.buys.filter isOrderActive).map
    (fun acc => convertDCAAccount acc logosPrice "LOGOS" Direction.BUY (txData acc)) ++
  (accountsByToken.LOGOS.sells.filter isOrderActive).map
    (fun acc => convertDCAAccount acc logosPrice "LOGOS" Direction.SELL (txData acc)) ++
  (accountsByToken.CHAOS.buys.filter isOrderActive).map
    (fun acc => convertDCAAccount acc chaosPrice "CHAOS" Direction.BUY (txData acc)) ++
  (accountsByToken.CHAOS.sells.filter isOrderActive).map
    (fun acc => convertDCAAccount acc chaosPrice "CHAOS" Direction.SELL (txData acc))

/-- a point of the published time series (`ChartDataPoint` as built in
`getDCAAccounts`, which also carries the order counts). -/
structure ChartDataPoint where
  timestamp : ℤ
  buyVolume : JsNum
  sellVolume : JsNum
  buyOrders : ℕ
  sellOrders : ℕ
deriving DecidableEq

/-- the chart point `getDCAAccounts` builds for one token from the freshly
computed summary and `Date.now()`. -/
def chartPointOf (s : TokenSummary) (now : ℤ) : ChartDataPoint :=
  { timestamp := now
    buyVolume := s.buyVolume
    sellVolume := s.sellVolume
    buyOrders := s.buyOrders
    sellOrders := s.sellOrders }

/-- one token's published series after a successful poll.  `getDCAAccounts`
builds `chartData` as a fresh singleton array per token, and
`fetchData` in `DCADashboard.tsx` stores it with `setChartData(data.chartData)`,
replacing the previous state wholesale; the previous series is discarded. -/
def nextChartSeries (_prev : List ChartDataPoint) (s : TokenSummary)
    (now : ℤ) : List ChartDataPoint :=
  [chartPointOf s now]

/-- the published series for one token after `n` successful polls, starting
from the dashboard's initial empty state; poll `i` computes summary
`polls i` at time `times i`. -/
def seriesAfterPolls (polls : ℕ → TokenSummary) (times : ℕ → ℤ) : ℕ →
    List ChartDataPoint
  | 0 => []
  | n + 1 => nextChartSeries (seriesAfterPolls polls times n) (polls n) (times n)

/-- the default `maxRetries` of `withRetry`. -/
def defaultMaxRetries : ℕ := 3

/-- the loop of `withRetry`, starting at attempt index `i` with `remaining`
iterations left and the last caught error (initially `undefined`, modelled
`none`).  The attempt outcomes are the oracle `op`; the result pairs the
returned/thrown value with the number of times `op` was invoked. -/
def withRetryGo {E A : Type} (op : ℕ → Except E A) (i : ℕ) :
    ℕ → Option E → Except (Option E) A × ℕ
  | 0, lastError => (Except.error lastError, 0)
  | remaining + 1, _ =>
    match op i with
    | Except.ok a => (Except.ok a, 1)
    | Except.error e =>
      let r := withRetryGo op (i + 1) remaining (some e)
      (r.1, r.2 + 1)

/-- model of `withRetry(operation, maxRetries)`: run the loop from attempt
`0`; after the loop exhausts, the last error is rethrown (`undefined` when
`maxRetries = 0`). -/
def withRetry {E A : Type} (op : ℕ → Except E A) (maxRetries : ℕ) :
    Except (Option E) A × ℕ :=
  withRetryGo op 0 maxRetries none

/-! Helper lemmas about the JS-number model and the cycle arithmetic. -/

theorem ratTrunc_eq_floor {q : ℚ} (h : 0 ≤ q) : ratTrunc q = ⌊q⌋ := by
  unfold ratTrunc
  rw [Int.tdiv_eq_ediv (Rat.num_nonneg.mpr h) (Int.natCast_nonneg _),
    Rat.floor_def]

theorem floor_intCast_div_intCast {u a : ℤ} (ha : 0 < a) :
    ⌊(u : ℚ) / (a : ℚ)⌋ = u / a := by
  have h1 : ((a.toNat : ℕ) : ℤ) = a := Int.toNat_of_nonneg ha.le
  have h2 : ((a.toNat : ℕ) : ℚ) = (a : ℚ) := by
    exact_mod_cast congrArg (fun z : ℤ => (z : ℚ)) h1
  rw [← h2, Rat.floor_intCast_div_natCast u a.toNat, h1]

namespace JsNum

theorem div_fin_fin {b : ℚ} (a : ℚ) (hb : b ≠ 0) :
    div (fin a) (fin b) = fin (a / b) := by simp [div, hb]

theorem mod_fin_fin {b : ℚ} (a : ℚ) (hb : b ≠ 0) :
    mod (fin a) (fin b) = fin (a - b * ((ratTrunc (a / b) : ℤ) : ℚ)) := by
  simp [mod, hb]

theorem add_fin_fin (a b : ℚ) : add (fin a) (fin b) = fin (a + b) := rfl

theorem sub_fin_fin (a b : ℚ) : sub (fin a) (fin b) = fin (a - b) := by
  simp [sub, neg, add, sub_eq_add_neg]

theorem mul_fin_fin (a b : ℚ) : mul (fin a) (fin b) = fin (a * b) := rfl

theorem nonneg_fin {q : ℚ} (h : 0 ≤ q) : nonneg (fin q) := by
  simp [nonneg, leb, h]

theorem nonneg_inf : nonneg inf := rfl

theorem nonneg_add {a b : JsNum} (ha : nonneg a) (hb : nonneg b) :
    nonneg (add a b) := by
  cases a <;> cases b <;> simp_all [nonneg, leb, add]
  positivity

theorem nonneg_round {a : JsNum} (ha : nonneg a) : nonneg (round a) := by
  cases a with
  | nan => exact absurd ha (by simp [nonneg, leb])
  | inf => exact ha
  | negInf => exact absurd ha (by simp [nonneg, leb])
  | fin q =>
    have hq : (0 : ℚ) ≤ q := by simpa [nonneg, leb] using ha
    have : (0 : ℤ) ≤ ⌊q + 1/2⌋ := Int.floor_nonneg.mpr (by linarith)
    simp only [round]
    exact nonneg_fin (by exact_mod_cast this)

end JsNum

/-- summing non-negative JS numbers starting from a non-negative
accumulator stays non-negative (`Infinity` counts as non-negative; no
`NaN` can appear since no term is `NaN` or `-Infinity`). -/
theorem foldl_add_nonneg {α : Type} (f : α → JsNum) (l : List α) :
    ∀ init : JsNum, JsNum.nonneg init → (∀ x ∈ l, JsNum.nonneg (f x)) →
      JsNum.nonneg (l.foldl (fun sum x => JsNum.add sum (f x)) init) := by
  induction l with
  | nil => intro init hinit _; simpa using hinit
  | cons a t ih =>
    intro init hinit hall
    simp only [List.foldl_cons]
    exact ih (JsNum.add init (f a))
      (JsNum.nonneg_add hinit (hall a (by simp)))
      (fun x hx => hall x (by simp [hx]))

theorem totalCyclesJs_eq {acc : RawAccount} (ha : acc.inAmountPerCycle ≠ 0) :
    totalCyclesJs acc =
      JsNum.fin ((⌈(acc.inDeposited : ℚ) / (acc.inAmountPerCycle : ℚ)⌉ : ℤ) : ℚ) := by
  have h : ((acc.inAmountPerCycle : ℚ)) ≠ 0 := Int.cast_ne_zero.mpr ha
  simp [totalCyclesJs, toNum, JsNum.div_fin_fin _ h, JsNum.ceil]

theorem completedFullCyclesJs_eq {acc : RawAccount} (ha : acc.inAmountPerCycle ≠ 0) :
    completedFullCyclesJs acc =
      JsNum.fin ((⌊(acc.inUsed : ℚ) / (acc.inAmountPerCycle : ℚ)⌋ : ℤ) : ℚ) := by
  have h : ((acc.inAmountPerCycle : ℚ)) ≠ 0 := Int.cast_ne_zero.mpr ha
  simp [completedFullCyclesJs, toNum, JsNum.div_fin_fin _ h, JsNum.floor]

theorem currentCycleUsedJs_eq {acc : RawAccount} (hu : 0 ≤ acc.inUsed)
    (ha : 0 < acc.inAmountPerCycle) :
    currentCycleUsedJs acc =
      JsNum.fin ((acc.inUsed : ℚ) / (acc.inAmountPerCycle : ℚ) -
        (⌊(acc.inUsed : ℚ) / (acc.inAmountPerCycle : ℚ)⌋ : ℤ)) := by
  have h : ((acc.inAmountPerCycle : ℚ)) ≠ 0 :=
    Int.cast_ne_zero.mpr ha.ne'
  have hq : (0 : ℚ) ≤ (acc.inUsed : ℚ) / (acc.inAmountPerCycle : ℚ) :=
    div_nonneg (by exact_mod_cast hu) (by exact_mod_cast ha.le)
  simp only [currentCycleUsedJs, toNum, JsNum.div_def,
    JsNum.mod_fin_fin _ h, JsNum.div_fin_fin _ h, ratTrunc_eq_floor hq]
  congr 1
  field_simp

theorem remainingCyclesJs_eq {acc : RawAccount} (hu : 0 ≤ acc.inUsed)
    (ha : 0 < acc.inAmountPerCycle) :
    remainingCyclesJs acc =
      JsNum.fin ((⌈(acc.inDeposited : ℚ) / (acc.inAmountPerCycle : ℚ)⌉ : ℤ) -
        (acc.inUsed : ℚ) / (acc.inAmountPerCycle : ℚ)) := by
  simp only [remainingCyclesJs, JsNum.sub_def, totalCyclesJs_eq ha.ne',
    completedFullCyclesJs_eq ha.ne', currentCycleUsedJs_eq hu ha,
    JsNum.sub_fin_fin]
  congr 1
  ring

theorem completedCyclesJs_eq {acc : RawAccount} (hu : 0 ≤ acc.inUsed)
    (ha : 0 < acc.inAmountPerCycle) :
    JsNum.add (completedFullCyclesJs acc) (currentCycleUsedJs acc) =
      JsNum.fin ((acc.inUsed : ℚ) / (acc.inAmountPerCycle : ℚ)) := by
  simp only [completedFullCyclesJs_eq ha.ne', currentCycleUsedJs_eq hu ha,
    JsNum.add_fin_fin]
  congr 1
  ring

/-- an active account (`used ≠ deposited`) with `0 ≤ used ≤ deposited` and
a positive cycle amount has at least one whole remaining cycle in the
summary's integer cycle arithmetic. -/
theorem summary_floor_lt_ceil {acc : RawAccount}
    (hud : acc.inUsed ≤ acc.inDeposited) (ha : 0 < acc.inAmountPerCycle)
    (hne : acc.inUsed ≠ acc.inDeposited) :
    ⌊(acc.inUsed : ℚ) / (acc.inAmountPerCycle : ℚ)⌋ <
      ⌈(acc.inDeposited : ℚ) / (acc.inAmountPerCycle : ℚ)⌉ := by
  have haq : (0 : ℚ) < (acc.inAmountPerCycle : ℚ) := by exact_mod_cast ha
  have hlt : (acc.inUsed : ℚ) < (acc.inDeposited : ℚ) := by
    exact_mod_cast lt_of_le_of_ne hud hne
  have h1 : ((⌊(acc.inUsed : ℚ) / (acc.inAmountPerCycle : ℚ)⌋ : ℤ) : ℚ) <
      ((⌈(acc.inDeposited : ℚ) / (acc.inAmountPerCycle : ℚ)⌉ : ℤ) : ℚ) := by
    calc ((⌊(acc.inUsed : ℚ) / (acc.inAmountPerCycle : ℚ)⌋ : ℤ) : ℚ) ≤
        (acc.inUsed : ℚ) / (acc.inAmountPerCycle : ℚ) := Int.floor_le _
      _ < (acc.inDeposited : ℚ) / (acc.inAmountPerCycle : ℚ) := by
          exact div_lt_div_of_pos_right hlt haq
      _ ≤ ((⌈(acc.inDeposited : ℚ) / (acc.inAmountPerCycle : ℚ)⌉ : ℤ) : ℚ) :=
          Int.le_ceil _
  exact_mod_cast h1

/-! Concrete inputs and the claim theorems. -/

/-- the raw account of the spec scenario behind C1: `deposited = 10^9`,
`withdrawn = 0`, `used = 607037037`, `amountPerCycle = 607037037`. -/
def c1Account : RawAccount :=
  { publicKey := "pk1"
    user := "user1"
    inputMint := "USDCmint"
    outputMint := "8SgNwESovnbG1oNEaPVhg6CR9mTMSK7jPvcYRe3wpump"
    idx := 0
    nextCycleAt := 0
    inDeposited := 1000000000
    inWithdrawn := 0
    outWithdrawn := 0
    inUsed := 607037037
    inAmountPerCycle := 607037037
    cycleFrequency := 86400
    minOutAmount := none
    maxOutAmount := none }

/-- C1 counterexample: on the scenario account the converter returns
`remainingInCycle = 607037037 / 10^6 = 607.037037`, not `0` as the claim
states: `used mod amountPerCycle = 0`, so
`(amountPerCycle - used mod amountPerCycle) / scale` is a full cycle. -/
theorem c1_remainingInCycle_not_zero :
    (convertDCAAccount c1Account 0 "CHAOS" Direction.BUY none).map
      Position.remainingInCycle = some (JsNum.fin (607037037 / 1000000)) ∧
    JsNum.fin ((607037037 : ℚ) / 1000000) ≠ JsNum.fin 0 := by
  constructor
  · have h : Int.tmod 607037037 607037037 = 0 := by decide
    norm_num [convertDCAAccount, c1Account, bnMod, h, toNum, scale, JsNum.div]
  · intro h
    have : ((607037037 : ℚ) / 1000000) = 0 := by injection h
    norm_num at this

/-- C1 (amended): on the scenario account the converter returns
`totalCycles = 2`, `completedCycles = 1`, and
`remainingInCycle = 607.037037` (a full cycle's worth, since
`used mod amountPerCycle = 0`), for any price, token, direction and
transaction data. -/
theorem c1_scenario (price : ℚ) (token : String) (type : Direction)
    (amounts : Option TxAmounts) :
    (convertDCAAccount c1Account price token type amounts).map
      Position.totalCycles = some (JsNum.fin 2) ∧
    (convertDCAAccount c1Account price token type amounts).map
      Position.completedCycles = some (JsNum.fin 1) ∧
    (convertDCAAccount c1Account price token type amounts).map
      Position.remainingInCycle = some (JsNum.fin (607037037 / 1000000)) := by
  have h : Int.tmod 607037037 607037037 = 0 := by decide
  have hc : (⌈(1000000000 : ℚ) / 607037037⌉ : ℤ) = 2 := by
    rw [Int.ceil_eq_iff]
    norm_num
  have hf : (⌊(607037037 : ℚ) / 607037037⌋ : ℤ) = 1 := by norm_num
  refine ⟨?_, ?_, ?_⟩ <;>
    norm_num [convertDCAAccount, c1Account, bnMod, h, toNum, scale, JsNum.div,
      totalCyclesJs, completedFullCyclesJs, currentCycleUsedJs, JsNum.ceil,
      JsNum.floor, JsNum.mod, JsNum.add, ratTrunc, hc, hf]

/-- a raw account with `amountPerCycle = 0`, the failing input behind C2. -/
def c2Account : RawAccount :=
  { publicKey := "pk2"
    user := "user2"
    inputMint := "USDCmint"
    outputMint := "HJUfqXoYjC653f2p33i84zdCC3jc4EuVnbruSe5kpump"
    idx := 0
    nextCycleAt := 0
    inDeposited := 1000000000
    inWithdrawn := 0
    outWithdrawn := 0
    inUsed := 607037037
    inAmountPerCycle := 0
    cycleFrequency := 86400
    minOutAmount := none
    maxOutAmount := none }

/-- C2 (code bug): the converter has no `MalformedAccount` guard; on an
account with `amountPerCycle = 0` it performs the cycle-count division
anyway and produces `totalCycles = Infinity`, and the only failure is the
later `BN.mod` zero-divisor assertion inside bn.js (the `none` result), an
unrelated exception, not a `MalformedAccount` error. -/
theorem c2_zero_amountPerCycle_not_guarded :
    totalCyclesJs c2Account = JsNum.inf ∧
    convertDCAAccount c2Account 0 "LOGOS" Direction.BUY none = none := by
  constructor
  · norm_num [totalCyclesJs, c2Account, toNum, JsNum.div, JsNum.ceil]
  · norm_num [convertDCAAccount, c2Account, bnMod]

/-- an active BUY account for the LOGOS token (output mint is the LOGOS
mint), the failing input behind C3 together with a zero LOGOS price. -/
def c3Account : RawAccount :=
  { publicKey := "pk3"
    user := "user3"
    inputMint := "USDCmint"
    outputMint := "HJUfqXoYjC653f2p33i84zdCC3jc4EuVnbruSe5kpump"
    idx := 0
    nextCycleAt := 0
    inDeposited := 1000000
    inWithdrawn := 0
    outWithdrawn := 0
    inUsed := 0
    inAmountPerCycle := 1000000
    cycleFrequency := 86400
    minOutAmount := none
    maxOutAmount := none }

/-- C3 (code bug): with a zero LOGOS price and one active LOGOS BUY
account, the summary aggregator divides the remaining committable capital
by the price and silently publishes `buyVolume = Infinity`; no
`PriceUnavailable` error exists anywhere in that code path. -/
theorem c3_zero_price_gives_infinity :
    ((calculateSummaryFromRawAccounts (categorizeAccounts [c3Account])
        { LOGOS := 0, CHAOS := 0 }).lookup "LOGOS").map
      TokenSummary.buyVolume = some JsNum.inf := by
  norm_num [calculateSummaryFromRawAccounts, categorizeAccounts, c3Account,
    LOGOS_MINT, CHAOS_MINT, summaryBuyVolume, summaryRemainingUSDC,
    summaryRemainingCycles, totalCyclesJs, completedFullCyclesJs,
    isOrderActive, toNum, scale, JsNum.div, JsNum.ceil, JsNum.floor,
    JsNum.sub, JsNum.add, JsNum.neg, JsNum.mul, JsNum.round, List.filter,
    List.lookup]

theorem withRetryGo_count_le {E A : Type} (op : ℕ → Except E A) :
    ∀ (r i : ℕ) (le : Option E), (withRetryGo op i r le).2 ≤ r := by
  intro r
  induction r with
  | zero => intro i le; simp [withRetryGo]
  | succ r ih =>
    intro i le
    simp only [withRetryGo]
    cases op i with
    | ok a => simp
    | error e => simpa using ih (i + 1) (some e)

theorem withRetryGo_first_success {E A : Type} (op : ℕ → Except E A) :
    ∀ (k r i : ℕ) (le : Option E) (a : A), k < r →
      (∀ j, j < k → ∃ e, op (i + j) = Except.error e) →
      op (i + k) = Except.ok a →
      withRetryGo op i r le = (Except.ok a, k + 1) := by
  intro k
  induction k with
  | zero =>
    intro r i le a hk _ hok
    cases r with
    | zero => omega
    | succ r =>
      simp only [withRetryGo]
      rw [show i + 0 = i from rfl] at hok
      rw [hok]
  | succ k ih =>
    intro r i le a hk hfail hok
    cases r with
    | zero => omega
    | succ r =>
      obtain ⟨e0, he0⟩ := hfail 0 (Nat.succ_pos k)
      simp only [withRetryGo]
      rw [show i + 0 = i from rfl] at he0
      rw [he0]
      have step := ih r (i + 1) (some e0) a (by omega)
        (fun j hj => by
          obtain ⟨e, he⟩ := hfail (j + 1) (by omega)
          exact ⟨e, by rw [show i + 1 + j = i + (j + 1) by omega]; exact he⟩)
        (by rw [show i + 1 + k = i + (k + 1) by omega]; exact hok)
      simp [step]

theorem withRetryGo_all_fail {E A : Type} (op : ℕ → Except E A) :
    ∀ (r i : ℕ) (le : Option E), 0 < r →
      (∀ j, j < r → ∃ e, op (i + j) = Except.error e) →
      ∃ e, op (i + (r - 1)) = Except.error e ∧
        (withRetryGo op i r le).1 = Except.error (some e) := by
  intro r
  induction r with
  | zero => intro i le h; omega
  | succ r ih =>
    intro i le _ hfail
    obtain ⟨e0, he0⟩ := hfail 0 (Nat.succ_pos r)
    rw [show i + 0 = i from rfl] at he0
    cases r with
    | zero =>
      refine ⟨e0, by simpa using he0, ?_⟩
      simp only [withRetryGo]
      rw [he0]
    | succ r =>
      obtain ⟨e, he, hres⟩ := ih (i + 1) (some e0) (Nat.succ_pos r)
        (fun j hj => by
          obtain ⟨e, he⟩ := hfail (j + 1) (by omega)
          exact ⟨e, by rw [show i + 1 + j = i + (j + 1) by omega]; exact he⟩)
      refine ⟨e, ?_, ?_⟩
      · rw [show i + (r + 1 + 1 - 1) = i + 1 + (r + 1 - 1) by omega]
        exact he
      · simp only [withRetryGo]
        rw [he0]
        exact hres

/-- C10: `withRetry` invokes its operation at most `maxRetries` times; it
returns the first successful attempt's value having invoked the operation
exactly up to that attempt, and when every attempt throws, it rethrows the
error of the last attempt. -/
theorem c10_withRetry_bounded {E A : Type} (op : ℕ → Except E A)
    (maxRetries : ℕ) :
    (withRetry op maxRetries).2 ≤ maxRetries ∧
    (∀ k a, k < maxRetries →
      (∀ j, j < k → ∃ e, op j = Except.error e) → op k = Except.ok a →
      withRetry op maxRetries = (Except.ok a, k + 1)) ∧
    (0 < maxRetries →
      (∀ j, j < maxRetries → ∃ e, op j = Except.error e) →
      ∃ e, op (maxRetries - 1) = Except.error e ∧
        (withRetry op maxRetries).1 = Except.error (some e)) := by
  refine ⟨withRetryGo_count_le op maxRetries 0 none, ?_, ?_⟩
  · intro k a hk hfail hok
    exact withRetryGo_first_success op k maxRetries 0 none a hk
      (fun j hj => by simpa using hfail j hj) (by simpa using hok)
  · intro hpos hfail
    have h := withRetryGo_all_fail op maxRetries 0 none hpos
      (fun j hj => by simpa using hfail j hj)
    simpa [withRetry] using h

/-- a concrete retry oracle: the first attempt throws, the second
succeeds. -/
def c10OpSucc : ℕ → Except String ℕ
  | 0 => Except.error "boom0"
  | 1 => Except.ok 42
  | _ + 2 => Except.error "late"

/-- a concrete retry oracle such that every attempt throws. -/
def c10OpFail (_ : ℕ) : Except String ℕ := Except.error "always"

/-- C10 witness: on the oracle failing once then succeeding, `withRetry`
with the default 3 retries returns the success after exactly 2 calls; on
the always-failing oracle it rethrows the third attempt's error. -/
theorem c10_withRetry_bounded_witness :
    withRetry c10OpSucc defaultMaxRetries = (Except.ok 42, 2) ∧
    (withRetry c10OpFail defaultMaxRetries).1 = Except.error (some "always") := by
  constructor
  · exact (c10_withRetry_bounded c10OpSucc defaultMaxRetries).2.1 1 42
      (by norm_num [defaultMaxRetries])
      (fun j hj => by
        interval_cases j
        exact ⟨"boom0", rfl⟩)
      rfl
  · obtain ⟨e, he, hres⟩ := (c10_withRetry_bounded c10OpFail defaultMaxRetries).2.2
      (by norm_num [defaultMaxRetries])
      (fun j hj => ⟨"always", rfl⟩)
    have h2 : c10OpFail (defaultMaxRetries - 1) = Except.error "always" := rfl
    rw [h2] at he
    injection he with h
    rw [← h] at hres
    exact hres

/-- an all-zero token summary, a concrete poll result for exercising the
chart-series update. -/
def zeroSummary : TokenSummary :=
  { buyOrders := 0
    sellOrders := 0
    buyVolume := JsNum.fin 0
    sellVolume := JsNum.fin 0
    buyVolumeUSDC := JsNum.fin 0
    sellVolumeUSDC := JsNum.fin 0
    price := 0 }

/-- C8 counterexample: after 2 successful polls the published series holds
1 point, not 2: `getDCAAccounts` rebuilds `chartData` as a fresh singleton
and `fetchData` replaces the state with it, so nothing is appended. -/
theorem c8_series_not_append_only :
    (seriesAfterPolls (fun _ => zeroSummary) (fun i => (i : ℤ)) 2).length = 1 ∧
    (1 : ℕ) ≠ 2 := by
  constructor
  · rfl
  · decide

/-- C8 (amended): each successful poll replaces the published series with a
fresh single-point series built from that poll's summary, so after any
positive number of successful polls the series contains exactly one point
(the latest), not one point per poll. -/
theorem c8_series_always_singleton (polls : ℕ → TokenSummary)
    (times : ℕ → ℤ) (n : ℕ) (hn : 0 < n) :
    seriesAfterPolls polls times n =
      [chartPointOf (polls (n - 1)) (times (n - 1))] := by
  cases n with
  | zero => omega
  | succ m => simp [seriesAfterPolls, nextChartSeries]

/-- C8 witness: instantiating the amended claim at 3 constant polls. -/
theorem c8_series_always_singleton_witness :
    seriesAfterPolls (fun _ => zeroSummary) (fun _ => (7 : ℤ)) 3 =
      [chartPointOf zeroSummary 7] := by
  have h := c8_series_always_singleton (fun _ => zeroSummary)
    (fun _ => (7 : ℤ)) 3 (by decide)
  simpa using h

/-- with a non-zero cycle amount the converter does not throw (the only
failure point is the `BN.mod` zero-divisor assertion). -/
theorem convertDCAAccount_isSome {acc : RawAccount}
    (ha : acc.inAmountPerCycle ≠ 0) (price : ℚ) (token : String)
    (type : Direction) (amounts : Option TxAmounts) :
    ∃ p, convertDCAAccount acc price token type amounts = some p := by
  unfold convertDCAAccount
  simp only [bnMod, ha, if_false, ite_false]
  exact ⟨_, rfl⟩

theorem convert_isActive {acc : RawAccount} {price : ℚ} {token : String}
    {type : Direction} {amounts : Option TxAmounts} {p : Position}
    (hp : convertDCAAccount acc price token type amounts = some p) :
    p.isActive = ((remainingCyclesJs acc).gtZero &&
      !(decide (acc.inUsed = acc.inDeposited))) := by
  unfold convertDCAAccount at hp
  cases hbn : bnMod acc.inUsed acc.inAmountPerCycle with
  | none => rw [hbn] at hp; exact absurd hp (by simp)
  | some u =>
    rw [hbn] at hp
    injection hp with h
    rw [← h]

theorem convert_totalCycles {acc : RawAccount} {price : ℚ} {token : String}
    {type : Direction} {amounts : Option TxAmounts} {p : Position}
    (hp : convertDCAAccount acc price token type amounts = some p) :
    p.totalCycles = totalCyclesJs acc := by
  unfold convertDCAAccount at hp
  cases hbn : bnMod acc.inUsed acc.inAmountPerCycle with
  | none => rw [hbn] at hp; exact absurd hp (by simp)
  | some u =>
    rw [hbn] at hp
    injection hp with h
    rw [← h]

theorem convert_completedCycles {acc : RawAccount} {price : ℚ}
    {token : String} {type : Direction} {amounts : Option TxAmounts}
    {p : Position}
    (hp : convertDCAAccount acc price token type amounts = some p) :
    p.completedCycles =
      JsNum.add (completedFullCyclesJs acc) (currentCycleUsedJs acc) := by
  unfold convertDCAAccount at hp
  cases hbn : bnMod acc.inUsed acc.inAmountPerCycle with
  | none => rw [hbn] at hp; exact absurd hp (by simp)
  | some u =>
    rw [hbn] at hp
    injection hp with h
    rw [← h, JsNum.add_def]

theorem convert_maxPrice {acc : RawAccount} {price : ℚ} {token : String}
    {type : Direction} {amounts : Option TxAmounts} {p : Position}
    (hp : convertDCAAccount acc price token type amounts = some p) :
    p.maxPrice = maxPriceJs acc type := by
  unfold convertDCAAccount at hp
  cases hbn : bnMod acc.inUsed acc.inAmountPerCycle with
  | none => rw [hbn] at hp; exact absurd hp (by simp)
  | some u =>
    rw [hbn] at hp
    injection hp with h
    rw [← h]

theorem convert_minPrice {acc : RawAccount} {price : ℚ} {token : String}
    {type : Direction} {amounts : Option TxAmounts} {p : Position}
    (hp : convertDCAAccount acc price token type amounts = some p) :
    p.minPrice = minPriceJs acc type := by
  unfold convertDCAAccount at hp
  cases hbn : bnMod acc.inUsed acc.inAmountPerCycle with
  | none => rw [hbn] at hp; exact absurd hp (by simp)
  | some u =>
    rw [hbn] at hp
    injection hp with h
    rw [← h]

/-- filtering for active orders twice equals filtering once (the summary
already filters each bucket, so pre-removing inactive accounts changes
nothing). -/
theorem filter_active_idem (l : List RawAccount) :
    (l.filter isOrderActive).filter isOrderActive = l.filter isOrderActive := by
  simp [List.filter_filter]

/-- a raw account with `used > deposited` (`used = 5`, `deposited = 3`
token units): the converter's fractional remaining-cycle count is negative. -/
def c4Account : RawAccount :=
  { publicKey := "pk4"
    user := "user4"
    inputMint := "USDCmint"
    outputMint := "HJUfqXoYjC653f2p33i84zdCC3jc4EuVnbruSe5kpump"
    idx := 0
    nextCycleAt := 0
    inDeposited := 3000000
    inWithdrawn := 0
    outWithdrawn := 0
    inUsed := 5000000
    inAmountPerCycle := 1000000
    cycleFrequency := 86400
    minOutAmount := none
    maxOutAmount := none }

/-- C4 counterexample: a raw account with `used = 5000000 ≠ 3000000 =
deposited` whose converted position nevertheless has `isActive = false`,
because `isActive` also requires `remainingCycles > 0` and here the
fractional remaining-cycle count is `3 - 5 = -2`; so `isActive = false` is
not equivalent to `used = deposited` over all raw accounts. -/
theorem c4_isActive_counterexample :
    c4Account.inUsed ≠ c4Account.inDeposited ∧
    (convertDCAAccount c4Account 0 "LOGOS" Direction.BUY none).map
      Position.isActive = some false := by
  constructor
  · decide
  · have h : Int.tmod 5000000 1000000 = 0 := by decide
    have hc : (⌈(3000000 : ℚ) / 1000000⌉ : ℤ) = 3 := by norm_num
    have hf : (⌊(5000000 : ℚ) / 1000000⌋ : ℤ) = 5 := by norm_num
    norm_num [convertDCAAccount, c4Account, bnMod, h, toNum, scale,
      remainingCyclesJs, totalCyclesJs, completedFullCyclesJs,
      currentCycleUsedJs, JsNum.div, JsNum.ceil, JsNum.floor, JsNum.mod,
      JsNum.sub, JsNum.add, JsNum.neg, JsNum.gtZero, ratTrunc, hc, hf]

/-- C4 (amended): for accounts satisfying `0 ≤ used ≤ deposited` and
`amountPerCycle > 0`, the converted position has `isActive = false` exactly
when `used = deposited`; and independently of any account invariant,
accounts with `used = deposited` contribute to no summary count and no
summary volume (pre-removing inactive accounts from every bucket leaves the
whole summary unchanged). -/
theorem c4_isActive_amended :
    (∀ (acc : RawAccount) (price : ℚ) (token : String) (type : Direction)
        (amounts : Option TxAmounts),
      0 ≤ acc.inUsed → acc.inUsed ≤ acc.inDeposited →
      0 < acc.inAmountPerCycle →
      ∃ p, convertDCAAccount acc price token type amounts = some p ∧
        (p.isActive = false ↔ acc.inUsed = acc.inDeposited)) ∧
    (∀ (abt : AccountsByToken) (prices : Prices),
      calculateSummaryFromRawAccounts abt prices =
        calculateSummaryFromRawAccounts
          { LOGOS := { buys := abt.LOGOS.buys.filter isOrderActive,
                       sells := abt.LOGOS.sells.filter isOrderActive },
            CHAOS := { buys := abt.CHAOS.buys.filter isOrderActive,
                       sells := abt.CHAOS.sells.filter isOrderActive } }
          prices) := by
  constructor
  · intro acc price token type amounts hu hud ha
    obtain ⟨p, hp⟩ := convertDCAAccount_isSome ha.ne' price token type amounts
    refine ⟨p, hp, ?_⟩
    rw [convert_isActive hp]
    by_cases heq : acc.inUsed = acc.inDeposited
    · simp [heq]
    · have hlt : (acc.inUsed : ℚ) / (acc.inAmountPerCycle : ℚ) <
          ((⌈(acc.inDeposited : ℚ) / (acc.inAmountPerCycle : ℚ)⌉ : ℤ) : ℚ) := by
        calc (acc.inUsed : ℚ) / (acc.inAmountPerCycle : ℚ) <
            (acc.inDeposited : ℚ) / (acc.inAmountPerCycle : ℚ) := by
              apply div_lt_div_of_pos_right
              · exact_mod_cast lt_of_le_of_ne hud heq
              · exact_mod_cast ha
          _ ≤ _ := Int.le_ceil _
      rw [remainingCyclesJs_eq hu ha]
      simp [JsNum.gtZero, sub_pos.mpr hlt, heq]
  · intro abt prices
    simp only [calculateSummaryFromRawAccounts, summaryBuyVolume,
      summarySellVolume, summaryBuyVolumeUSDC, summarySellVolumeUSDC,
      filter_active_idem]

/-- a well-formed active raw account (`used = 0 < deposited`,
`amountPerCycle > 0`). -/
def c4ActiveAccount : RawAccount :=
  { publicKey := "pk4b"
    user := "user4b"
    inputMint := "HJUfqXoYjC653f2p33i84zdCC3jc4EuVnbruSe5kpump"
    outputMint := "USDCmint"
    idx := 0
    nextCycleAt := 0
    inDeposited := 3000000
    inWithdrawn := 0
    outWithdrawn := 0
    inUsed := 0
    inAmountPerCycle := 1000000
    cycleFrequency := 86400
    minOutAmount := none
    maxOutAmount := none }

/-- C4 witness: the amended equivalence applied to a well-formed active
concrete account. -/
theorem c4_isActive_amended_witness :
    ∃ p, convertDCAAccount c4ActiveAccount 1 "LOGOS" Direction.SELL none =
        some p ∧
      (p.isActive = false ↔
        c4ActiveAccount.inUsed = c4ActiveAccount.inDeposited) := by
  exact c4_isActive_amended.1 c4ActiveAccount 1 "LOGOS" Direction.SELL none
    (by norm_num [c4ActiveAccount]) (by norm_num [c4ActiveAccount])
    (by norm_num [c4ActiveAccount])

/-- C5: for raw accounts with `0 ≤ used ≤ deposited` and
`amountPerCycle > 0`, the converted position's `totalCycles` is
`ceil(deposited/amountPerCycle)`, its `completedCycles` is
`floor(used/amountPerCycle) + (used mod amountPerCycle)/amountPerCycle`,
and `completedCycles ≤ totalCycles` holds (in exact arithmetic the
fractional completed-cycle count equals `used/amountPerCycle`). -/
theorem c5_completed_le_total (acc : RawAccount) (price : ℚ) (token : String)
    (type : Direction) (amounts : Option TxAmounts)
    (hu : 0 ≤ acc.inUsed) (hud : acc.inUsed ≤ acc.inDeposited)
    (ha : 0 < acc.inAmountPerCycle) :
    ∃ p, convertDCAAccount acc price token type amounts = some p ∧
      p.totalCycles =
        JsNum.fin ((⌈(acc.inDeposited : ℚ) / (acc.inAmountPerCycle : ℚ)⌉ : ℤ) : ℚ) ∧
      p.completedCycles =
        JsNum.fin (((⌊(acc.inUsed : ℚ) / (acc.inAmountPerCycle : ℚ)⌋ : ℤ) : ℚ) +
          ((acc.inUsed % acc.inAmountPerCycle : ℤ) : ℚ) / (acc.inAmountPerCycle : ℚ)) ∧
      JsNum.leb p.completedCycles p.totalCycles = true := by
  obtain ⟨p, hp⟩ := convertDCAAccount_isSome ha.ne' price token type amounts
  have haq : (0 : ℚ) < (acc.inAmountPerCycle : ℚ) := by exact_mod_cast ha
  have hfl : ⌊(acc.inUsed : ℚ) / (acc.inAmountPerCycle : ℚ)⌋ =
      acc.inUsed / acc.inAmountPerCycle := floor_intCast_div_intCast ha
  have hmod : ((acc.inUsed % acc.inAmountPerCycle : ℤ) : ℚ) =
      (acc.inUsed : ℚ) - (acc.inAmountPerCycle : ℚ) *
        ((acc.inUsed / acc.inAmountPerCycle : ℤ) : ℚ) := by
    rw [Int.emod_def]
    push_cast
    ring
  have hcompleted : p.completedCycles =
      JsNum.fin ((acc.inUsed : ℚ) / (acc.inAmountPerCycle : ℚ)) := by
    rw [convert_completedCycles hp, completedCyclesJs_eq hu ha]
  have hclaim : ((⌊(acc.inUsed : ℚ) / (acc.inAmountPerCycle : ℚ)⌋ : ℤ) : ℚ) +
      ((acc.inUsed % acc.inAmountPerCycle : ℤ) : ℚ) / (acc.inAmountPerCycle : ℚ) =
      (acc.inUsed : ℚ) / (acc.inAmountPerCycle : ℚ) := by
    rw [hfl, hmod]
    field_simp
    ring
  refine ⟨p, hp, ?_, ?_, ?_⟩
  · rw [convert_totalCycles hp, totalCyclesJs_eq ha.ne']
  · rw [hcompleted, hclaim]
  · rw [hcompleted, convert_totalCycles hp, totalCyclesJs_eq ha.ne']
    have hle : (acc.inUsed : ℚ) / (acc.inAmountPerCycle : ℚ) ≤
        ((⌈(acc.inDeposited : ℚ) / (acc.inAmountPerCycle : ℚ)⌉ : ℤ) : ℚ) := by
      calc (acc.inUsed : ℚ) / (acc.inAmountPerCycle : ℚ) ≤
          (acc.inDeposited : ℚ) / (acc.inAmountPerCycle : ℚ) :=
            (div_le_div_iff_of_pos_right haq).mpr (by exact_mod_cast hud)
        _ ≤ ((⌈(acc.inDeposited : ℚ) / (acc.inAmountPerCycle : ℚ)⌉ : ℤ) : ℚ) :=
            Int.le_ceil _
    simp [JsNum.leb, hle]

/-- a well-formed raw account mid-way through its second cycle. -/
def c5Account : RawAccount :=
  { publicKey := "pk5"
    user := "user5"
    inputMint := "USDCmint"
    outputMint := "8SgNwESovnbG1oNEaPVhg6CR9mTMSK7jPvcYRe3wpump"
    idx := 0
    nextCycleAt := 0
    inDeposited := 1000000000
    inWithdrawn := 0
    outWithdrawn := 0
    inUsed := 700000000
    inAmountPerCycle := 607037037
    cycleFrequency := 86400
    minOutAmount := none
    maxOutAmount := none }

/-- C5 witness: the bound instantiated on a concrete well-formed account. -/
theorem c5_completed_le_total_witness :
    ∃ p, convertDCAAccount c5Account 0 "CHAOS" Direction.BUY none = some p ∧
      p.totalCycles =
        JsNum.fin ((⌈(c5Account.inDeposited : ℚ) / (c5Account.inAmountPerCycle : ℚ)⌉ : ℤ) : ℚ) ∧
      p.completedCycles =
        JsNum.fin (((⌊(c5Account.inUsed : ℚ) / (c5Account.inAmountPerCycle : ℚ)⌋ : ℤ) : ℚ) +
          ((c5Account.inUsed % c5Account.inAmountPerCycle : ℤ) : ℚ) /
            (c5Account.inAmountPerCycle : ℚ)) ∧
      JsNum.leb p.completedCycles p.totalCycles = true := by
  exact c5_completed_le_total c5Account 0 "CHAOS" Direction.BUY none
    (by norm_num [c5Account]) (by norm_num [c5Account])
    (by norm_num [c5Account])

/-- dividing both operands of a JS division by the same positive scale
leaves the result unchanged, including the division-by-zero cases (the
source computes `(apc/10^6) / (bound/10^6)`, the claim states
`apc / bound`). -/
theorem scaled_div_cancel (a m s : ℚ) (hs : 0 < s) :
    JsNum.div (JsNum.div (JsNum.fin a) (JsNum.fin s))
      (JsNum.div (JsNum.fin m) (JsNum.fin s)) =
    JsNum.div (JsNum.fin a) (JsNum.fin m) := by
  have hs' : s ≠ 0 := hs.ne'
  rw [JsNum.div_fin_fin a hs', JsNum.div_fin_fin m hs']
  rcases eq_or_ne m 0 with hm | hm
  · subst hm
    rw [zero_div]
    rcases lt_trichotomy a 0 with h | h | h
    · have h1 : a / s < 0 := div_neg_of_neg_of_pos h hs
      simp [JsNum.div, h.ne, h1.ne, not_lt.mpr h.le, not_lt.mpr h1.le]
    · subst h
      simp [JsNum.div]
    · have h1 : 0 < a / s := div_pos h hs
      simp [JsNum.div, h.ne', h1.ne', h, h1]
  · have hms : m / s ≠ 0 := div_ne_zero hm hs'
    rw [JsNum.div_fin_fin _ hms, JsNum.div_fin_fin _ hm]
    congr 1
    field_simp

/-- C7: a converted position carries a price bound only for its own
direction: BUY positions have `maxPrice = amountPerCycle / maxOutAmount`
when the bound exists and the `"No limit"` sentinel otherwise, with
`minPrice` absent; SELL positions have
`minPrice = minOutAmount / amountPerCycle` when the bound exists and
absent otherwise, with `maxPrice` absent. -/
theorem c7_price_bounds (acc : RawAccount) (price : ℚ) (token : String)
    (amounts : Option TxAmounts) (ha : acc.inAmountPerCycle ≠ 0) :
    (∃ p, convertDCAAccount acc price token Direction.BUY amounts = some p ∧
      p.minPrice = none ∧
      p.maxPrice = some (match acc.maxOutAmount with
        | some m => PriceLimit.num
            (JsNum.div (toNum acc.inAmountPerCycle) (toNum m))
        | none => PriceLimit.noLimit)) ∧
    (∃ q, convertDCAAccount acc price token Direction.SELL amounts = some q ∧
      q.maxPrice = none ∧
      q.minPrice = acc.minOutAmount.map (fun m =>
        JsNum.div (toNum m) (toNum acc.inAmountPerCycle))) := by
  have hscale : (0 : ℚ) < scale := by norm_num [scale]
  constructor
  · obtain ⟨p, hp⟩ := convertDCAAccount_isSome ha price token Direction.BUY
      amounts
    refine ⟨p, hp, ?_, ?_⟩
    · rw [convert_minPrice hp]
      rfl
    · rw [convert_maxPrice hp]
      unfold maxPriceJs
      cases hmo : acc.maxOutAmount with
      | none => rfl
      | some m =>
        simp only [JsNum.div_def, toNum]
        rw [scaled_div_cancel _ _ _ hscale]
  · obtain ⟨q, hq⟩ := convertDCAAccount_isSome ha price token Direction.SELL
      amounts
    refine ⟨q, hq, ?_, ?_⟩
    · rw [convert_maxPrice hq]
      rfl
    · rw [convert_minPrice hq]
      unfold minPriceJs
      cases hmo : acc.minOutAmount with
      | none => rfl
      | some m =>
        simp only [JsNum.div_def, toNum, Option.map_some']
        rw [scaled_div_cancel _ _ _ hscale]

/-- a raw account carrying both optional output bounds. -/
def c7Account : RawAccount :=
  { publicKey := "pk7"
    user := "user7"
    inputMint := "USDCmint"
    outputMint := "8SgNwESovnbG1oNEaPVhg6CR9mTMSK7jPvcYRe3wpump"
    idx := 0
    nextCycleAt := 0
    inDeposited := 10000000
    inWithdrawn := 0
    outWithdrawn := 0
    inUsed := 2000000
    inAmountPerCycle := 2000000
    cycleFrequency := 86400
    minOutAmount := some 1000000
    maxOutAmount := some 4000000 }

/-- C7 witness: the direction-selected bounds on a concrete account with
both optional bounds present. -/
theorem c7_price_bounds_witness :
    (∃ p, convertDCAAccount c7Account 1 "CHAOS" Direction.BUY none = some p ∧
      p.minPrice = none ∧
      p.maxPrice = some (match c7Account.maxOutAmount with
        | some m => PriceLimit.num
            (JsNum.div (toNum c7Account.inAmountPerCycle) (toNum m))
        | none => PriceLimit.noLimit)) ∧
    (∃ q, convertDCAAccount c7Account 1 "CHAOS" Direction.SELL none = some q ∧
      q.maxPrice = none ∧
      q.minPrice = c7Account.minOutAmount.map (fun m =>
        JsNum.div (toNum m) (toNum c7Account.inAmountPerCycle))) := by
  exact c7_price_bounds c7Account 1 "CHAOS" none (by norm_num [c7Account])

/-- on an active well-formed account the summary's remaining committable
capital `remainingCycles * (amountPerCycle/10^6)` is a strictly positive
finite number. -/
theorem summaryRemainingUSDC_fin_pos {acc : RawAccount}
    (hud : acc.inUsed ≤ acc.inDeposited) (ha : 0 < acc.inAmountPerCycle)
    (hact : isOrderActive acc = true) :
    ∃ r : ℚ, summaryRemainingUSDC acc = JsNum.fin r ∧ 0 < r := by
  have hne : acc.inUsed ≠ acc.inDeposited := by
    simpa [isOrderActive] using hact
  have hlt := summary_floor_lt_ceil hud ha hne
  have haq : (0 : ℚ) < (acc.inAmountPerCycle : ℚ) := by exact_mod_cast ha
  refine ⟨(((⌈(acc.inDeposited : ℚ) / (acc.inAmountPerCycle : ℚ)⌉ : ℤ) : ℚ) -
      ((⌊(acc.inUsed : ℚ) / (acc.inAmountPerCycle : ℚ)⌋ : ℤ) : ℚ)) *
      ((acc.inAmountPerCycle : ℚ) / scale), ?_, ?_⟩
  · unfold summaryRemainingUSDC summaryRemainingCycles
    rw [totalCyclesJs_eq ha.ne', completedFullCyclesJs_eq ha.ne']
    simp only [JsNum.sub_def, JsNum.mul_def, JsNum.div_def, toNum]
    rw [JsNum.sub_fin_fin, JsNum.div_fin_fin _
      (by norm_num [scale] : scale ≠ 0), JsNum.mul_fin_fin]
  · apply mul_pos
    · rw [sub_pos]
      exact_mod_cast hlt
    · exact div_pos haq (by norm_num [scale])

/-- a strictly positive finite numerator divided by a non-negative finite
price is non-negative in JS: positive price gives a non-negative quotient,
zero price gives `Infinity`. -/
theorem buy_term_nonneg {x : JsNum} (price : ℚ) (hp : 0 ≤ price)
    (hx : ∃ r, x = JsNum.fin r ∧ 0 < r) :
    (JsNum.div x (JsNum.fin price)).nonneg := by
  obtain ⟨r, rfl, hr⟩ := hx
  rcases eq_or_ne price 0 with hp0 | hp0
  · subst hp0
    have h : JsNum.div (JsNum.fin r) (JsNum.fin 0) = JsNum.inf := by
      simp [JsNum.div, hr.ne', hr]
    rw [h]
    exact JsNum.nonneg_inf
  · rw [JsNum.div_fin_fin _ hp0]
    exact JsNum.nonneg_fin (div_nonneg hr.le (lt_of_le_of_ne hp (Ne.symm hp0)).le)

theorem summaryBuyVolume_nonneg (buys : List RawAccount) (price : ℚ)
    (hp : 0 ≤ price)
    (h : ∀ acc ∈ buys, acc.inUsed ≤ acc.inDeposited ∧
      0 < acc.inAmountPerCycle) :
    (summaryBuyVolume buys price).nonneg := by
  unfold summaryBuyVolume
  apply JsNum.nonneg_round
  simp only [JsNum.add_def, JsNum.div_def]
  exact foldl_add_nonneg
    (fun acc => JsNum.div (summaryRemainingUSDC acc) (JsNum.fin price))
    (buys.filter isOrderActive) (JsNum.fin 0) (JsNum.nonneg_fin le_rfl)
    (fun acc hacc => by
      simp only
      rw [List.mem_filter] at hacc
      obtain ⟨hud, ha⟩ := h acc hacc.1
      exact buy_term_nonneg price hp
        (summaryRemainingUSDC_fin_pos hud ha hacc.2))

theorem summarySellVolume_nonneg (sells : List RawAccount)
    (h : ∀ acc ∈ sells, acc.inWithdrawn ≤ acc.inDeposited) :
    (summarySellVolume sells).nonneg := by
  unfold summarySellVolume
  simp only [JsNum.add_def, JsNum.div_def]
  exact foldl_add_nonneg
    (fun acc => JsNum.div (toNum (acc.inDeposited - acc.inWithdrawn))
      (JsNum.fin scale))
    (sells.filter isOrderActive) (JsNum.fin 0) (JsNum.nonneg_fin le_rfl)
    (fun acc hacc => by
      simp only [toNum]
      rw [List.mem_filter] at hacc
      have h2 : (0 : ℚ) ≤ ((acc.inDeposited - acc.inWithdrawn : ℤ) : ℚ) := by
        exact_mod_cast sub_nonneg.mpr (h acc hacc.1)
      rw [JsNum.div_fin_fin _ (by norm_num [scale] : scale ≠ 0)]
      exact JsNum.nonneg_fin (div_nonneg h2 (by norm_num [scale])))

theorem summaryBuyVolumeUSDC_nonneg (buys : List RawAccount)
    (h : ∀ acc ∈ buys, acc.inUsed ≤ acc.inDeposited ∧
      0 < acc.inAmountPerCycle) :
    (summaryBuyVolumeUSDC buys).nonneg := by
  unfold summaryBuyVolumeUSDC
  apply JsNum.nonneg_round
  simp only [JsNum.add_def, JsNum.mul_def, JsNum.div_def]
  exact foldl_add_nonneg
    (fun acc => JsNum.mul (summaryRemainingCycles acc)
      (JsNum.div (toNum acc.inAmountPerCycle) (JsNum.fin scale)))
    (buys.filter isOrderActive) (JsNum.fin 0) (JsNum.nonneg_fin le_rfl)
    (fun acc hacc => by
      simp only
      rw [List.mem_filter] at hacc
      obtain ⟨hud, ha⟩ := h acc hacc.1
      obtain ⟨r, hr, hrpos⟩ := summaryRemainingUSDC_fin_pos hud ha hacc.2
      have heq : JsNum.mul (summaryRemainingCycles acc)
          (JsNum.div (toNum acc.inAmountPerCycle) (JsNum.fin scale)) =
          JsNum.fin r := hr
      rw [heq]
      exact JsNum.nonneg_fin hrpos.le)

theorem summarySellVolumeUSDC_nonneg (sells : List RawAccount) (price : ℚ)
    (hp : 0 ≤ price)
    (h : ∀ acc ∈ sells, acc.inWithdrawn ≤ acc.inDeposited) :
    (summarySellVolumeUSDC sells price).nonneg := by
  unfold summarySellVolumeUSDC
  apply JsNum.nonneg_round
  simp only [JsNum.add_def, JsNum.mul_def, JsNum.div_def]
  exact foldl_add_nonneg
    (fun acc => JsNum.mul (JsNum.div (toNum (acc.inDeposited - acc.inWithdrawn))
      (JsNum.fin scale)) (JsNum.fin price))
    (sells.filter isOrderActive) (JsNum.fin 0) (JsNum.nonneg_fin le_rfl)
    (fun acc hacc => by
      simp only [toNum]
      rw [List.mem_filter] at hacc
      have h2 : (0 : ℚ) ≤ ((acc.inDeposited - acc.inWithdrawn : ℤ) : ℚ) := by
        exact_mod_cast sub_nonneg.mpr (h acc hacc.1)
      rw [JsNum.div_fin_fin _ (by norm_num [scale] : scale ≠ 0),
        JsNum.mul_fin_fin]
      exact JsNum.nonneg_fin
        (mul_nonneg (div_nonneg h2 (by norm_num [scale])) hp))

/-- C6: for buckets of raw accounts satisfying
`0 ≤ withdrawn ≤ deposited`, `0 ≤ used ≤ deposited`, `amountPerCycle > 0`
and non-negative prices, all four volume fields of every emitted
`TokenSummary` are non-negative in the JS order (a zero price can make
`buyVolume` equal `Infinity`, which JS still orders above `0`). -/
theorem c6_volumes_nonneg (abt : AccountsByToken) (prices : Prices)
    (hL : 0 ≤ prices.LOGOS) (hC : 0 ≤ prices.CHAOS)
    (hacc : ∀ acc ∈ abt.LOGOS.buys ++ abt.LOGOS.sells ++
        abt.CHAOS.buys ++ abt.CHAOS.sells,
      0 ≤ acc.inWithdrawn ∧ acc.inWithdrawn ≤ acc.inDeposited ∧
      0 ≤ acc.inUsed ∧ acc.inUsed ≤ acc.inDeposited ∧
      0 < acc.inAmountPerCycle) :
    ∀ name s, (name, s) ∈ calculateSummaryFromRawAccounts abt prices →
      s.buyVolume.nonneg ∧ s.sellVolume.nonneg ∧
      s.buyVolumeUSDC.nonneg ∧ s.sellVolumeUSDC.nonneg := by
  have hLb : ∀ acc ∈ abt.LOGOS.buys, acc.inUsed ≤ acc.inDeposited ∧
      0 < acc.inAmountPerCycle := by
    intro acc hm
    have h := hacc acc (by simp [hm])
    exact ⟨h.2.2.2.1, h.2.2.2.2⟩
  have hLs : ∀ acc ∈ abt.LOGOS.sells, acc.inWithdrawn ≤ acc.inDeposited := by
    intro acc hm
    exact (hacc acc (by simp [hm])).2.1
  have hCb : ∀ acc ∈ abt.CHAOS.buys, acc.inUsed ≤ acc.inDeposited ∧
      0 < acc.inAmountPerCycle := by
    intro acc hm
    have h := hacc acc (by simp [hm])
    exact ⟨h.2.2.2.1, h.2.2.2.2⟩
  have hCs : ∀ acc ∈ abt.CHAOS.sells, acc.inWithdrawn ≤ acc.inDeposited := by
    intro acc hm
    exact (hacc acc (by simp [hm])).2.1
  intro name s hmem
  simp only [calculateSummaryFromRawAccounts, List.mem_cons,
    List.not_mem_nil, or_false, Prod.mk.injEq] at hmem
  rcases hmem with ⟨_, hs⟩ | ⟨_, hs⟩
  · subst hs
    exact ⟨summaryBuyVolume_nonneg _ _ hL hLb,
      summarySellVolume_nonneg _ hLs,
      summaryBuyVolumeUSDC_nonneg _ hLb,
      summarySellVolumeUSDC_nonneg _ _ hL hLs⟩
  · subst hs
    exact ⟨summaryBuyVolume_nonneg _ _ hC hCb,
      summarySellVolume_nonneg _ hCs,
      summaryBuyVolumeUSDC_nonneg _ hCb,
      summarySellVolumeUSDC_nonneg _ _ hC hCs⟩

/-- C6 witness: the invariant instantiated on one-account buckets (an
active LOGOS sell) with positive prices, the bucket entry picked out
explicitly. -/
theorem c6_volumes_nonneg_witness :
    (summaryBuyVolume [] 2).nonneg ∧
    (summarySellVolume [c4ActiveAccount]).nonneg ∧
    (summaryBuyVolumeUSDC []).nonneg ∧
    (summarySellVolumeUSDC [c4ActiveAccount] 2).nonneg := by
  have h := c6_volumes_nonneg
    { LOGOS := { buys := [], sells := [c4ActiveAccount] },
      CHAOS := { buys := [], sells := [] } }
    { LOGOS := 2, CHAOS := 3 } (by norm_num) (by norm_num)
    (by
      intro acc hm
      have hacc : acc = c4ActiveAccount := by simpa using hm
      subst hacc
      norm_num [c4ActiveAccount])
  exact h "LOGOS"
    { buyOrders := (List.filter isOrderActive []).length
      sellOrders := (List.filter isOrderActive [c4ActiveAccount]).length
      buyVolume := summaryBuyVolume [] 2
      sellVolume := summarySellVolume [c4ActiveAccount]
      buyVolumeUSDC := summaryBuyVolumeUSDC []
      sellVolumeUSDC := summarySellVolumeUSDC [c4ActiveAccount] 2
      price := 2 }
    (List.Mem.head _)

/-- C9: the emitted summary map has exactly the keys `LOGOS` and `CHAOS`
(in that order), and an account whose input and output mints both match
neither tracked mint lands in no bucket, so removing it changes neither the
categorisation, nor the summary, nor the emitted positions. -/
theorem c9_untracked_contributes_nothing (xs ys : List RawAccount)
    (acc : RawAccount) (prices : Prices) (logosPrice chaosPrice : ℚ)
    (txData : RawAccount → Option TxAmounts)
    (h1 : acc.inputMint ≠ LOGOS_MINT) (h2 : acc.inputMint ≠ CHAOS_MINT)
    (h3 : acc.outputMint ≠ LOGOS_MINT) (h4 : acc.outputMint ≠ CHAOS_MINT) :
    (calculateSummaryFromRawAccounts (categorizeAccounts (xs ++ acc :: ys))
        prices).map Prod.fst = ["LOGOS", "CHAOS"] ∧
    categorizeAccounts (xs ++ acc :: ys) = categorizeAccounts (xs ++ ys) ∧
    calculateSummaryFromRawAccounts (categorizeAccounts (xs ++ acc :: ys))
        prices =
      calculateSummaryFromRawAccounts (categorizeAccounts (xs ++ ys))
        prices ∧
    buildPositions (categorizeAccounts (xs ++ acc :: ys)) logosPrice
        chaosPrice txData =
      buildPositions (categorizeAccounts (xs ++ ys)) logosPrice chaosPrice
        txData := by
  have hcat : categorizeAccounts (xs ++ acc :: ys) =
      categorizeAccounts (xs ++ ys) := by
    simp [categorizeAccounts, List.filter_append, List.filter_cons,
      h1, h2, h3, h4]
  refine ⟨rfl, hcat, by rw [hcat], by rw [hcat]⟩

/-- a raw account that trades neither tracked token on either side. -/
def c9OtherAccount : RawAccount :=
  { publicKey := "pk9"
    user := "user9"
    inputMint := "USDCmint"
    outputMint := "SomeOtherMint1111111111111111111111111111111"
    idx := 0
    nextCycleAt := 0
    inDeposited := 1000000
    inWithdrawn := 0
    outWithdrawn := 0
    inUsed := 0
    inAmountPerCycle := 1000000
    cycleFrequency := 86400
    minOutAmount := none
    maxOutAmount := none }

/-- C9 witness: dropping a concrete untracked account from a singleton
fetch changes nothing. -/
theorem c9_untracked_contributes_nothing_witness :
    (calculateSummaryFromRawAccounts
        (categorizeAccounts ([] ++ c9OtherAccount :: []))
        { LOGOS := 1, CHAOS := 1 }).map Prod.fst = ["LOGOS", "CHAOS"] ∧
    categorizeAccounts ([] ++ c9OtherAccount :: []) =
      categorizeAccounts ([] ++ []) ∧
    calculateSummaryFromRawAccounts
        (categorizeAccounts ([] ++ c9OtherAccount :: []))
        { LOGOS := 1, CHAOS := 1 } =
      calculateSummaryFromRawAccounts (categorizeAccounts ([] ++ []))
        { LOGOS := 1, CHAOS := 1 } ∧
    buildPositions (categorizeAccounts ([] ++ c9OtherAccount :: [])) 1 1
        (fun _ => none) =
      buildPositions (categorizeAccounts ([] ++ [])) 1 1 (fun _ => none) := by
  exact c9_untracked_contributes_nothing [] [] c9OtherAccount
    { LOGOS := 1, CHAOS := 1 } 1 1 (fun _ => none)
    (by decide) (by decide) (by decide) (by decide)

end OpenDCA
